import Mathlib

/-!
Verification of the Court_System API (`src/Problem 1/main.py`) against its
specification.  The database state (tables `users`, `cases`, `votes`) is
embedded as a Lean structure and every request handler as a pure function
`DB → args → Except Err α × DB`: the returned `DB` is the committed state
after the request (error paths commit nothing, matching the source where an
`HTTPException` is raised before `conn.commit()` or the transaction is
rolled back on close).
-/

namespace CourtSystem

/-- Embeds the Python `UserRole(str, Enum)`. -/
inductive UserRole where
  | defendant
  | plaintiff
  | juror
  | judge
deriving DecidableEq, Repr

/-- Embeds the Python `VerdictStatus(str, Enum)`. -/
inductive VerdictStatus where
  | pending
  | approved
  | rejected
deriving DecidableEq, Repr

/-- Embeds the Python `Vote(str, Enum)` (the verdict values). -/
inductive Vote where
  | guilty
  | not_guilty
deriving DecidableEq, Repr

/-- A row of the `users` table. -/
structure User where
  username : String
  password : String
  role : UserRole
deriving DecidableEq, Repr

/-- A row of the `cases` table.  `created_at` models the `datetime.now()`
timestamp as an abstract number. -/
structure Case where
  id : Nat
  defendant_name : String
  plaintiff_name : String
  argument : String
  evidence : String
  status : VerdictStatus
  submitted_by : String
  created_at : Nat
deriving DecidableEq, Repr

/-- A row of the `votes` table. -/
structure VoteRow where
  id : Nat
  case_id : Nat
  juror : String
  verdict : Vote
deriving DecidableEq, Repr

/-- The database: the three tables plus the serial-id counters the
database engine keeps for the generated `id` columns. -/
structure DB where
  users : List User
  cases : List Case
  votes : List VoteRow
  nextCaseId : Nat
  nextVoteId : Nat
deriving DecidableEq, Repr

/-- The error taxonomy of the handlers.  `unauthorized`, `forbidden`,
`notFound`, `conflict` embed the `HTTPException`s raised with status
401, 403, 404 and 400 respectively; `noneTypeError` embeds the unhandled
Python `TypeError` raised when a handler subscripts the `None` returned
by `fetchone()` for a username absent from `users`. -/
inductive Err where
  | unauthorized
  | forbidden
  | notFound
  | conflict
  | noneTypeError
deriving DecidableEq, Repr

/-- Embeds `SELECT role FROM users WHERE username = %s` + `fetchone()`. -/
def lookupRole (st : DB) (username : String) : Option UserRole :=
  (st.users.find? (fun u => u.username == username)).map User.role

/-- Embeds `SELECT id FROM cases WHERE id = %s` + `fetchone()`. -/
def findCase (st : DB) (case_id : Nat) : Option Case :=
  st.cases.find? (fun c => c.id == case_id)

/-- Embeds the pydantic `CaseSubmission` model. -/
structure CaseSubmission where
  defendant_name : String
  plaintiff_name : String
  argument : String
  evidence : String
deriving DecidableEq, Repr

/-- Embeds the pydantic `CaseUpdate` model (both fields `Optional`). -/
structure CaseUpdate where
  argument : Option String
  evidence : Option String
deriving DecidableEq, Repr

/-- Embeds `POST /auth/signup`: conflict if the username exists, otherwise
insert the new user.  (The returned token is not modelled; the claims only
concern errors and state.) -/
def signup (st : DB) (username password : String) (role : UserRole) :
    Except Err Unit × DB :=
  if st.users.any (fun u => u.username == username) then
    (Except.error Err.conflict, st)
  else
    (Except.ok (),
      { st with users := st.users ++ [{ username := username, password := password, role := role }] })

/-- Embeds `POST /auth/login`: 401 if the username is absent or the stored
password differs; never mutates state. -/
def login (st : DB) (username password : String) : Except Err Unit × DB :=
  match st.users.find? (fun u => u.username == username) with
  | none => (Except.error Err.unauthorized, st)
  | some u =>
    if u.password ≠ password then (Except.error Err.unauthorized, st)
    else (Except.ok (), st)

/-- Embeds `POST /case/submit`.  The role is read with
`user = cur.fetchone()` then `user["role"]`: an absent user makes the
handler crash on `None` (`noneTypeError`). -/
def submit_case (st : DB) (username : String) (case : CaseSubmission) (now : Nat) :
    Except Err Nat × DB :=
  match lookupRole st username with
  | none => (Except.error Err.noneTypeError, st)
  | some r =>
    if r ≠ UserRole.defendant ∧ r ≠ UserRole.plaintiff then
      (Except.error Err.forbidden, st)
    else
      (Except.ok st.nextCaseId,
        { st with
            cases := st.cases ++
              [{ id := st.nextCaseId
                 defendant_name := case.defendant_name
                 plaintiff_name := case.plaintiff_name
                 argument := case.argument
                 evidence := case.evidence
                 status := VerdictStatus.pending
                 submitted_by := username
                 created_at := now }]
            nextCaseId := st.nextCaseId + 1 })

/-- Embeds `GET /case/all`: no role check, returns every case. -/
def get_all_cases (st : DB) (_username : String) : Except Err (List Case) × DB :=
  (Except.ok st.cases, st)

/-- Tokens of a SQL `LIKE` pattern: the `%` wildcard, the `_` wildcard,
and a literal character. -/
inductive LTok where
  | pct
  | usc
  | lit (c : Char)
deriving DecidableEq, Repr

/-- Lexes a `LIKE` pattern as PostgreSQL reads it: `%` and `_` are
wildcards and a backslash escapes the following pattern character.
`none` is PostgreSQL's "pattern must not end with escape character"
error; the patterns the source builds with `f"%{name.lower()}%"` end in
`%`, so that error never arises for them. -/
def lexPat : List Char → Option (List LTok)
  | [] => some []
  | c :: ps =>
    if c = '%' then (lexPat ps).map (LTok.pct :: ·)
    else if c = '_' then (lexPat ps).map (LTok.usc :: ·)
    else if c = '\\' then
      match ps with
      | [] => none
      | q :: qs => (lexPat qs).map (LTok.lit q :: ·)
    else (lexPat ps).map (LTok.lit c :: ·)

/-- Matches a lexed `LIKE` pattern against a text: `%` matches when the
rest of the pattern matches some suffix of the text, `_` consumes one
character, a literal consumes exactly itself, and the empty pattern
matches only the empty text. -/
def tokMatch : List LTok → List Char → Bool
  | [], t => t.isEmpty
  | LTok.pct :: ps, t => t.tails.any (fun u => tokMatch ps u)
  | LTok.usc :: _, [] => false
  | LTok.usc :: ps, _ :: ts => tokMatch ps ts
  | LTok.lit _ :: _, [] => false
  | LTok.lit q :: ps, c :: ts => (c = q) && tokMatch ps ts

/-- SQL `LIKE` over character lists (an invalid pattern matches nothing). -/
def likeMatch (p t : List Char) : Bool :=
  match lexPat p with
  | none => false
  | some ks => tokMatch ks t

/-- Lower-casing of a character list, embedding SQL `LOWER` and Python
`str.lower()` on the (ASCII) names involved. -/
def lowerL (s : List Char) : List Char := s.map Char.toLower

/-- The `WHERE` clause of `filter_by_name`:
`LOWER(defendant_name) LIKE %name.lower()% OR LOWER(plaintiff_name) LIKE ...`. -/
def searchMatches (name : String) (c : Case) : Bool :=
  likeMatch ('%' :: (lowerL name.toList ++ ['%'])) (lowerL c.defendant_name.toList) ||
    likeMatch ('%' :: (lowerL name.toList ++ ['%'])) (lowerL c.plaintiff_name.toList)

/-- Embeds `GET /case/by-name/{name}`: juror-only, then the `LIKE` filter. -/
def filter_by_name (st : DB) (username name : String) :
    Except Err (List Case) × DB :=
  match lookupRole st username with
  | none => (Except.error Err.noneTypeError, st)
  | some r =>
    if r ≠ UserRole.juror then (Except.error Err.forbidden, st)
    else (Except.ok (st.cases.filter (searchMatches name)), st)

/-- The two `if update.argument:` / `if update.evidence:` blocks of
`edit_case`.  Python truthiness: a field that is `None` or the empty
string triggers no `UPDATE`. -/
def applyUpdate (update : CaseUpdate) (c : Case) : Case :=
  let c1 :=
    match update.argument with
    | some a => if a = "" then c else { c with argument := a }
    | none => c
  match update.evidence with
  | some e => if e = "" then c1 else { c1 with evidence := e }
  | none => c1

/-- The effect of `edit_case`'s `UPDATE ... WHERE id = %s` statements on a
single row: rows with the matching id get the field updates, others are
untouched. -/
def updateRow (update : CaseUpdate) (case_id : Nat) (d : Case) : Case :=
  if d.id == case_id then applyUpdate update d else d

/-- Embeds `PATCH /case/edit/{case_id}`: judge-only, 404 if the case is
absent, then per-field `UPDATE`s and a final `SELECT` of the row. -/
def edit_case (st : DB) (username : String) (case_id : Nat) (update : CaseUpdate) :
    Except Err Case × DB :=
  match lookupRole st username with
  | none => (Except.error Err.noneTypeError, st)
  | some r =>
    if r ≠ UserRole.judge then (Except.error Err.forbidden, st)
    else
      match findCase st case_id with
      | none => (Except.error Err.notFound, st)
      | some c =>
        (Except.ok (applyUpdate update c),
          { st with cases := st.cases.map (updateRow update case_id) })

/-- Embeds `DELETE /case/delete/{case_id}`: judge-only, 404 if absent,
then `DELETE FROM cases WHERE id = %s` (only the `cases` table). -/
def delete_case (st : DB) (username : String) (case_id : Nat) :
    Except Err Unit × DB :=
  match lookupRole st username with
  | none => (Except.error Err.noneTypeError, st)
  | some r =>
    if r ≠ UserRole.judge then (Except.error Err.forbidden, st)
    else
      match findCase st case_id with
      | none => (Except.error Err.notFound, st)
      | some _ =>
        (Except.ok (),
          { st with cases := st.cases.filter (fun c => !(c.id == case_id)) })

/-- The effect of `UPDATE cases SET status = %s WHERE id = %s` on a single
row: rows with the matching id get the new status, others are untouched. -/
def setStatusRow (s : VerdictStatus) (case_id : Nat) (d : Case) : Case :=
  if d.id == case_id then { d with status := s } else d

/-- Embeds `PATCH /case/approve/{case_id}`: judge-only, then
`UPDATE cases SET status = 'approved' WHERE id = %s RETURNING *`;
404 (and rollback) if no row was updated. -/
def approve_case (st : DB) (username : String) (case_id : Nat) :
    Except Err Case × DB :=
  match lookupRole st username with
  | none => (Except.error Err.noneTypeError, st)
  | some r =>
    if r ≠ UserRole.judge then (Except.error Err.forbidden, st)
    else
      match findCase st case_id with
      | none => (Except.error Err.notFound, st)
      | some c =>
        (Except.ok { c with status := VerdictStatus.approved },
          { st with cases := st.cases.map (setStatusRow VerdictStatus.approved case_id) })

/-- Embeds `PATCH /case/reject/{case_id}`: judge-only, then
`UPDATE cases SET status = 'rejected' WHERE id = %s RETURNING *`;
404 (and rollback) if no row was updated. -/
def reject_case (st : DB) (username : String) (case_id : Nat) :
    Except Err Case × DB :=
  match lookupRole st username with
  | none => (Except.error Err.noneTypeError, st)
  | some r =>
    if r ≠ UserRole.judge then (Except.error Err.forbidden, st)
    else
      match findCase st case_id with
      | none => (Except.error Err.notFound, st)
      | some c =>
        (Except.ok { c with status := VerdictStatus.rejected },
          { st with cases := st.cases.map (setStatusRow VerdictStatus.rejected case_id) })

/-- Embeds `POST /jury/vote/{case_id}`: juror-only, 404 if the case is
absent, 400 if this juror already voted on this case, otherwise insert
the vote row. -/
def vote (st : DB) (username : String) (case_id : Nat) (verdict : Vote) :
    Except Err Unit × DB :=
  match lookupRole st username with
  | none => (Except.error Err.noneTypeError, st)
  | some r =>
    if r ≠ UserRole.juror then (Except.error Err.forbidden, st)
    else
      match findCase st case_id with
      | none => (Except.error Err.notFound, st)
      | some _ =>
        if st.votes.any (fun v => v.case_id == case_id && v.juror == username) then
          (Except.error Err.conflict, st)
        else
          (Except.ok (),
            { st with
                votes := st.votes ++
                  [{ id := st.nextVoteId, case_id := case_id, juror := username, verdict := verdict }]
                nextVoteId := st.nextVoteId + 1 })

/-- The tally returned by `get_results`. -/
structure Tally where
  guilty : Nat
  not_guilty : Nat
  total_votes : Nat
deriving DecidableEq, Repr

/-- Embeds `GET /jury/results/{case_id}`: no role check, 404 if the case
is absent, otherwise the grouped verdict counts and their sum. -/
def get_results (st : DB) (_username : String) (case_id : Nat) :
    Except Err Tally × DB :=
  match findCase st case_id with
  | none => (Except.error Err.notFound, st)
  | some _ =>
    let g := st.votes.countP (fun v => v.case_id == case_id && v.verdict == Vote.guilty)
    let ng := st.votes.countP (fun v => v.case_id == case_id && v.verdict == Vote.not_guilty)
    (Except.ok { guilty := g, not_guilty := ng, total_votes := g + ng }, st)

/-- One API request with its arguments: the whole surface of the service. -/
inductive Op where
  | opSignup (username password : String) (role : UserRole)
  | opLogin (username password : String)
  | opSubmit (username : String) (case : CaseSubmission) (now : Nat)
  | opGetAll (username : String)
  | opSearch (username name : String)
  | opEdit (username : String) (case_id : Nat) (update : CaseUpdate)
  | opDelete (username : String) (case_id : Nat)
  | opApprove (username : String) (case_id : Nat)
  | opReject (username : String) (case_id : Nat)
  | opVote (username : String) (case_id : Nat) (verdict : Vote)
  | opResults (username : String) (case_id : Nat)

/-- The database state after one request: each constructor of `Op`
dispatches to its handler and keeps the committed state. -/
def step (st : DB) : Op → DB
  | Op.opSignup u p r => (signup st u p r).2
  | Op.opLogin u p => (login st u p).2
  | Op.opSubmit u c now => (submit_case st u c now).2
  | Op.opGetAll u => (get_all_cases st u).2
  | Op.opSearch u n => (filter_by_name st u n).2
  | Op.opEdit u cid upd => (edit_case st u cid upd).2
  | Op.opDelete u cid => (delete_case st u cid).2
  | Op.opApprove u cid => (approve_case st u cid).2
  | Op.opReject u cid => (reject_case st u cid).2
  | Op.opVote u cid v => (vote st u cid v).2
  | Op.opResults u cid => (get_results st u cid).2

/-- The `LIKE` metacharacters: a list of characters none of which is `%`,
`_` or a backslash lexes to plain literals. -/
def noWild (s : List Char) : Prop :=
  ∀ c ∈ s, c ≠ '%' ∧ c ≠ '_' ∧ c ≠ '\\'

/-- The specification's notion of a case-insensitive substring match:
the lower-cased needle occurs contiguously in the lower-cased haystack. -/
def containsCI (needle hay : String) : Prop :=
  ∃ l r, lowerL hay.toList = l ++ lowerL needle.toList ++ r

/-- The role lookup reduces to `find?` on the `users` table. -/
theorem lookupRole_eq (st : DB) (u : String) (usr : User)
    (hfind : st.users.find? (fun x => x.username == u) = some usr) :
    lookupRole st u = some usr.role := by
  simp [lookupRole, hfind]

/-- An absent username makes the role lookup return nothing. -/
theorem lookupRole_none (st : DB) (u : String)
    (habsent : st.users.find? (fun x => x.username == u) = none) :
    lookupRole st u = none := by
  simp [lookupRole, habsent]

/-- A case with the requested id makes `findCase` return some row. -/
theorem findCase_isSome (st : DB) (cid : Nat) (c : Case)
    (hc : c ∈ st.cases) (hid : c.id = cid) :
    ∃ c', findCase st cid = some c' := by
  cases hfc : findCase st cid with
  | none =>
    exfalso
    have := List.find?_eq_none.mp hfc c hc
    simp [hid] at this
  | some c' => exact ⟨c', rfl⟩

/-! ## Claim theorems -/

/-- C8: `signup` with an existing username fails with Conflict, `login`
with an absent username or a mismatched password fails with Unauthorized,
and in each failing run the stored users, cases and votes are unchanged
(the returned state is exactly the input state). -/
theorem signup_login_failures_pure (st : DB) (u pw : String) (r : UserRole) :
    ((∃ w ∈ st.users, w.username = u) →
      signup st u pw r = (Except.error Err.conflict, st)) ∧
    ((∀ w ∈ st.users, w.username ≠ u) →
      login st u pw = (Except.error Err.unauthorized, st)) ∧
    (∀ w, st.users.find? (fun x => x.username == u) = some w → w.password ≠ pw →
      login st u pw = (Except.error Err.unauthorized, st)) := by
  refine ⟨?_, ?_, ?_⟩
  · rintro ⟨w, hw, he⟩
    have hany : st.users.any (fun x => x.username == u) = true :=
      List.any_eq_true.mpr ⟨w, hw, by simp [he]⟩
    simp [signup, hany]
  · intro h
    have hnone : st.users.find? (fun x => x.username == u) = none :=
      List.find?_eq_none.mpr (fun w hw => by simpa using h w hw)
    simp [login, hnone]
  · intro w hw hpw
    simp [login, hw, hpw]

/-- Sample state for the C8 witness: one juror named `a`. -/
def stC8 : DB :=
  { users := [{ username := "a", password := "pw", role := UserRole.juror }]
    cases := [], votes := [], nextCaseId := 1, nextVoteId := 1 }

/-- Witness for C8 at a concrete state: duplicate signup, unknown login
and wrong-password login all fail without mutating the state. -/
theorem signup_login_failures_pure_witness :
    signup stC8 "a" "x" UserRole.judge = (Except.error Err.conflict, stC8) ∧
    login stC8 "b" "pw" = (Except.error Err.unauthorized, stC8) ∧
    login stC8 "a" "wrong" = (Except.error Err.unauthorized, stC8) := by
  obtain ⟨h1, h2, h3⟩ := signup_login_failures_pure stC8 "a" "x" UserRole.judge
  refine ⟨h1 ?_, ?_, ?_⟩
  · exact ⟨{ username := "a", password := "pw", role := UserRole.juror }, by decide, rfl⟩
  · obtain ⟨_, h2', _⟩ := signup_login_failures_pure stC8 "b" "pw" UserRole.judge
    exact h2' (by decide)
  · obtain ⟨_, _, h3'⟩ := signup_login_failures_pure stC8 "a" "wrong" UserRole.judge
    exact h3' { username := "a", password := "pw", role := UserRole.juror } (by decide) (by decide)

/-- C5: an authenticated actor whose stored role is not judge gets
Forbidden from approve, reject, edit and delete, whether or not the
case id exists, and the state is unchanged. -/
theorem non_judge_forbidden (st : DB) (u : String) (cid : Nat) (update : CaseUpdate)
    (usr : User) (hfind : st.users.find? (fun x => x.username == u) = some usr)
    (hrole : usr.role ≠ UserRole.judge) :
    approve_case st u cid = (Except.error Err.forbidden, st) ∧
    reject_case st u cid = (Except.error Err.forbidden, st) ∧
    edit_case st u cid update = (Except.error Err.forbidden, st) ∧
    delete_case st u cid = (Except.error Err.forbidden, st) := by
  have hl := lookupRole_eq st u usr hfind
  exact ⟨by simp [approve_case, hl, hrole], by simp [reject_case, hl, hrole],
    by simp [edit_case, hl, hrole], by simp [delete_case, hl, hrole]⟩

/-- Sample state for the C5 witness: a juror, and a case that exists. -/
def stC5 : DB :=
  { users := [{ username := "u", password := "pw", role := UserRole.juror }]
    cases := [{ id := 1, defendant_name := "A", plaintiff_name := "B",
                argument := "arg", evidence := "ev", status := VerdictStatus.pending,
                submitted_by := "d", created_at := 0 }]
    votes := [], nextCaseId := 2, nextVoteId := 1 }

/-- Witness for C5: a juror is Forbidden from all four judge-only
operations, on an existing case id (1) and a missing one (9). -/
theorem non_judge_forbidden_witness :
    approve_case stC5 "u" 1 = (Except.error Err.forbidden, stC5) ∧
    delete_case stC5 "u" 9 = (Except.error Err.forbidden, stC5) := by
  obtain ⟨h1, _, _, _⟩ :=
    non_judge_forbidden stC5 "u" 1 { argument := none, evidence := none }
      { username := "u", password := "pw", role := UserRole.juror } (by decide) (by decide)
  obtain ⟨_, _, _, h4⟩ :=
    non_judge_forbidden stC5 "u" 9 { argument := none, evidence := none }
      { username := "u", password := "pw", role := UserRole.juror } (by decide) (by decide)
  exact ⟨h1, h4⟩

/-- C9: every role-checked handler (submit, search, edit, delete,
approve, reject, vote) subscripts the row returned by the role lookup,
so an authenticated username that is absent from `users` crashes the
handler with the unhandled `TypeError` on `None` (not a clean
Unauthorized or Forbidden), leaving the state unchanged. -/
theorem missing_user_crashes (st : DB) (u name : String) (cid : Nat)
    (case : CaseSubmission) (update : CaseUpdate) (v : Vote) (now : Nat)
    (habsent : st.users.find? (fun x => x.username == u) = none) :
    submit_case st u case now = (Except.error Err.noneTypeError, st) ∧
    filter_by_name st u name = (Except.error Err.noneTypeError, st) ∧
    edit_case st u cid update = (Except.error Err.noneTypeError, st) ∧
    delete_case st u cid = (Except.error Err.noneTypeError, st) ∧
    approve_case st u cid = (Except.error Err.noneTypeError, st) ∧
    reject_case st u cid = (Except.error Err.noneTypeError, st) ∧
    vote st u cid v = (Except.error Err.noneTypeError, st) := by
  have hl := lookupRole_none st u habsent
  exact ⟨by simp [submit_case, hl], by simp [filter_by_name, hl],
    by simp [edit_case, hl], by simp [delete_case, hl], by simp [approve_case, hl],
    by simp [reject_case, hl], by simp [vote, hl]⟩

/-- Witness for C9: with an empty `users` table, submit and vote crash
with the `None` subscripting error rather than a 401/403. -/
theorem missing_user_crashes_witness :
    submit_case { users := [], cases := [], votes := [], nextCaseId := 1, nextVoteId := 1 }
        "ghost" { defendant_name := "A", plaintiff_name := "B", argument := "a", evidence := "e" } 0 =
      (Except.error Err.noneTypeError,
        { users := [], cases := [], votes := [], nextCaseId := 1, nextVoteId := 1 }) ∧
    vote { users := [], cases := [], votes := [], nextCaseId := 1, nextVoteId := 1 }
        "ghost" 1 Vote.guilty =
      (Except.error Err.noneTypeError,
        { users := [], cases := [], votes := [], nextCaseId := 1, nextVoteId := 1 }) := by
  obtain ⟨h1, _, _, _, _, _, h7⟩ :=
    missing_user_crashes
      { users := [], cases := [], votes := [], nextCaseId := 1, nextVoteId := 1 }
      "ghost" "n" 1
      { defendant_name := "A", plaintiff_name := "B", argument := "a", evidence := "e" }
      { argument := none, evidence := none } Vote.guilty 0 (by decide)
  exact ⟨h1, h7⟩

/-- C10: for a judge and an existing case, delete removes exactly the
rows of `cases` carrying that id; `users`, `votes` and the id counters
are untouched, so votes referencing the deleted case remain stored. -/
theorem delete_frame (st : DB) (u : String) (cid : Nat) (usr : User)
    (hfind : st.users.find? (fun x => x.username == u) = some usr)
    (hrole : usr.role = UserRole.judge)
    (c : Case) (hc : c ∈ st.cases) (hid : c.id = cid) :
    (delete_case st u cid).1 = Except.ok () ∧
    (delete_case st u cid).2.users = st.users ∧
    (delete_case st u cid).2.votes = st.votes ∧
    (delete_case st u cid).2.nextCaseId = st.nextCaseId ∧
    (delete_case st u cid).2.nextVoteId = st.nextVoteId ∧
    (∀ d ∈ (delete_case st u cid).2.cases, d ∈ st.cases ∧ d.id ≠ cid) ∧
    (∀ d ∈ st.cases, d.id ≠ cid → d ∈ (delete_case st u cid).2.cases) := by
  have hl := lookupRole_eq st u usr hfind
  obtain ⟨c', hc'⟩ := findCase_isSome st cid c hc hid
  have hdel : delete_case st u cid =
      (Except.ok (), { st with cases := st.cases.filter (fun d => !(d.id == cid)) }) := by
    simp [delete_case, hl, hrole, hc']
  refine ⟨by simp [hdel], by simp [hdel], by simp [hdel], by simp [hdel], by simp [hdel], ?_, ?_⟩
  · intro d hd
    rw [hdel] at hd
    simp only [List.mem_filter] at hd
    exact ⟨hd.1, by simpa using hd.2⟩
  · intro d hd hne
    rw [hdel]
    simp only [List.mem_filter]
    exact ⟨hd, by simpa using hne⟩

/-- Sample state for the C10 witness: a judge, one case, and one vote
referencing that case. -/
def stC10 : DB :=
  { users := [{ username := "j", password := "pw", role := UserRole.judge }]
    cases := [{ id := 1, defendant_name := "A", plaintiff_name := "B",
                argument := "arg", evidence := "ev", status := VerdictStatus.pending,
                submitted_by := "d", created_at := 0 }]
    votes := [{ id := 1, case_id := 1, juror := "u", verdict := Vote.guilty }]
    nextCaseId := 2, nextVoteId := 2 }

/-- Witness for C10: deleting case 1 keeps the vote row referencing it. -/
theorem delete_frame_witness :
    (delete_case stC10 "j" 1).1 = Except.ok () ∧
    (delete_case stC10 "j" 1).2.votes =
      [{ id := 1, case_id := 1, juror := "u", verdict := Vote.guilty }] ∧
    (delete_case stC10 "j" 1).2.users = stC10.users := by
  obtain ⟨h1, h2, h3, _, _, _, _⟩ :=
    delete_frame stC10 "j" 1 { username := "j", password := "pw", role := UserRole.judge }
      (by decide) rfl
      { id := 1, defendant_name := "A", plaintiff_name := "B",
        argument := "arg", evidence := "ev", status := VerdictStatus.pending,
        submitted_by := "d", created_at := 0 } (by decide) rfl
  exact ⟨h1, h3.trans rfl, h2⟩

/-- Inversion of a successful `vote`: the actor is a juror, the case
exists, no duplicate vote was present, and the new state appends exactly
one vote row. -/
theorem vote_ok_inv (st st' : DB) (u : String) (cid : Nat) (v1 : Vote)
    (h : vote st u cid v1 = (Except.ok (), st')) :
    lookupRole st u = some UserRole.juror ∧
    (∃ c, findCase st cid = some c) ∧
    st.votes.any (fun v => v.case_id == cid && v.juror == u) = false ∧
    st' = { st with
              votes := st.votes ++
                [{ id := st.nextVoteId, case_id := cid, juror := u, verdict := v1 }]
              nextVoteId := st.nextVoteId + 1 } := by
  unfold vote at h
  split at h
  · simp at h
  · rename_i r hrole
    split at h
    · simp at h
    · rename_i hr
      split at h
      · simp at h
      · rename_i c hfc
        split at h
        · simp at h
        · rename_i hdup
          simp only [Prod.mk.injEq, true_and] at h
          have hrj : r = UserRole.juror := not_not.mp hr
          exact ⟨by rw [hrole, hrj], ⟨c, hfc⟩, by simpa using hdup, h.symm⟩

/-- C1: a successful vote by a juror on a case makes any second vote by
the same juror on the same case fail with Conflict and insert nothing,
so the state keeps exactly the one inserted row and a subsequent tally
counts only the first vote. -/
theorem one_vote_per_juror (st st' : DB) (u : String) (cid : Nat) (v1 : Vote)
    (h : vote st u cid v1 = (Except.ok (), st')) :
    (∀ v2, vote st' u cid v2 = (Except.error Err.conflict, st')) ∧
    st'.votes = st.votes ++
      [{ id := st.nextVoteId, case_id := cid, juror := u, verdict := v1 }] ∧
    (∀ w, get_results st' w cid =
      (Except.ok
        { guilty := st.votes.countP (fun v => v.case_id == cid && v.verdict == Vote.guilty) +
            (if v1 = Vote.guilty then 1 else 0)
          not_guilty := st.votes.countP (fun v => v.case_id == cid && v.verdict == Vote.not_guilty) +
            (if v1 = Vote.not_guilty then 1 else 0)
          total_votes :=
            st.votes.countP (fun v => v.case_id == cid && v.verdict == Vote.guilty) +
              (if v1 = Vote.guilty then 1 else 0) +
              (st.votes.countP (fun v => v.case_id == cid && v.verdict == Vote.not_guilty) +
                (if v1 = Vote.not_guilty then 1 else 0)) }, st')) := by
  obtain ⟨hrole, ⟨c, hfc⟩, hdup, hst'⟩ := vote_ok_inv st st' u cid v1 h
  have hrole' : lookupRole st' u = some UserRole.juror := by
    unfold lookupRole at hrole ⊢
    rw [hst']
    exact hrole
  have hfc' : findCase st' cid = some c := by
    unfold findCase at hfc ⊢
    rw [hst']
    exact hfc
  have hvotes : st'.votes = st.votes ++
      [{ id := st.nextVoteId, case_id := cid, juror := u, verdict := v1 }] := by
    rw [hst']
  refine ⟨?_, hvotes, ?_⟩
  · intro v2
    have hdup' : (st'.votes.any fun v => v.case_id == cid && v.juror == u) = true := by
      rw [hvotes, List.any_append]
      simp
    rw [vote.eq_def, hrole', hfc']
    simp only [ne_eq, not_true_eq_false, if_false, hdup', if_true]
  · intro w
    rw [get_results.eq_def, hfc', hvotes]
    simp only [List.countP_append, List.countP_cons, List.countP_nil]
    cases v1 <;> simp

/-- Pre-state for the C1 witness: one juror, one pending case, no votes. -/
def stC1 : DB :=
  { users := [{ username := "u", password := "pw", role := UserRole.juror }]
    cases := [{ id := 1, defendant_name := "A", plaintiff_name := "B",
                argument := "arg", evidence := "ev", status := VerdictStatus.pending,
                submitted_by := "d", created_at := 0 }]
    votes := [], nextCaseId := 2, nextVoteId := 1 }

/-- Post-state of the first (guilty) vote in the C1 witness. -/
def stC1' : DB :=
  { stC1 with
      votes := [{ id := 1, case_id := 1, juror := "u", verdict := Vote.guilty }]
      nextVoteId := 2 }

/-- Witness for C1: after juror `u` votes guilty on case 1, a second
not-guilty vote fails with Conflict and the tally is {guilty 1, total 1}. -/
theorem one_vote_per_juror_witness :
    vote stC1' "u" 1 Vote.not_guilty = (Except.error Err.conflict, stC1') ∧
    get_results stC1' "w" 1 =
      (Except.ok { guilty := 1, not_guilty := 0, total_votes := 1 }, stC1') := by
  obtain ⟨hconf, _, htally⟩ :=
    one_vote_per_juror stC1 stC1' "u" 1 Vote.guilty rfl
  refine ⟨hconf Vote.not_guilty, ?_⟩
  rw [htally "w"]
  rfl

/-- The handler-side grouped count equals the specification's count:
the number of the case's votes carrying the given verdict. -/
theorem countP_verdict_spec (l : List VoteRow) (cid : Nat) (w : Vote) :
    l.countP (fun v => v.case_id == cid && v.verdict == w) =
      ((l.filter (fun v => v.case_id == cid)).filter (fun v => v.verdict == w)).length := by
  rw [← List.countP_eq_length_filter, List.countP_filter]
  congr 1
  funext v
  exact Bool.and_comm _ _

/-- C3: tally of an existing case returns the count of its guilty votes,
the count of its not-guilty votes and their sum, fails with NotFound on
an absent case id, never mutates state, and consults neither the acting
username nor the `users` table nor the case status. -/
theorem tally_spec (st : DB) (u : String) (cid : Nat) :
    (findCase st cid = none → get_results st u cid = (Except.error Err.notFound, st)) ∧
    (∀ c, c ∈ st.cases → c.id = cid →
      ∃ t, get_results st u cid = (Except.ok t, st) ∧
        t.guilty =
          ((st.votes.filter (fun v => v.case_id == cid)).filter
            (fun v => v.verdict == Vote.guilty)).length ∧
        t.not_guilty =
          ((st.votes.filter (fun v => v.case_id == cid)).filter
            (fun v => v.verdict == Vote.not_guilty)).length ∧
        t.total_votes = t.guilty + t.not_guilty) ∧
    (∀ u' us, get_results st u' cid = get_results st u cid ∧
      (get_results { st with users := us } u cid).1 = (get_results st u cid).1) := by
  refine ⟨?_, ?_, fun u' us => ⟨rfl, ?_⟩⟩
  · intro hnone
    rw [get_results.eq_def, hnone]
  · intro c hc hid
    obtain ⟨c', hc'⟩ := findCase_isSome st cid c hc hid
    refine ⟨_, by rw [get_results.eq_def, hc'], ?_, ?_, rfl⟩
    · exact countP_verdict_spec st.votes cid Vote.guilty
    · exact countP_verdict_spec st.votes cid Vote.not_guilty
  · cases hfc : st.cases.find? (fun c => c.id == cid) with
    | none => simp [get_results, findCase, hfc]
    | some c => simp [get_results, findCase, hfc]

/-- State for the C3 witness: case 1 with votes {guilty, guilty,
not_guilty} (and a stray vote on another case id, which tally ignores). -/
def stC3 : DB :=
  { users := [{ username := "u", password := "pw", role := UserRole.juror }]
    cases := [{ id := 1, defendant_name := "A", plaintiff_name := "B",
                argument := "arg", evidence := "ev", status := VerdictStatus.pending,
                submitted_by := "d", created_at := 0 }]
    votes := [{ id := 1, case_id := 1, juror := "u1", verdict := Vote.guilty },
              { id := 2, case_id := 1, juror := "u2", verdict := Vote.guilty },
              { id := 3, case_id := 1, juror := "u3", verdict := Vote.not_guilty },
              { id := 4, case_id := 7, juror := "u4", verdict := Vote.not_guilty }]
    nextCaseId := 2, nextVoteId := 5 }

/-- Witness for C3: the spec's example tally {guilty 2, not_guilty 1,
total 3}. -/
theorem tally_spec_witness :
    get_results stC3 "z" 1 =
      (Except.ok { guilty := 2, not_guilty := 1, total_votes := 3 }, stC3) := by
  obtain ⟨t, heq, hg, hng, ht⟩ :=
    (tally_spec stC3 "z" 1).2.1
      { id := 1, defendant_name := "A", plaintiff_name := "B",
        argument := "arg", evidence := "ev", status := VerdictStatus.pending,
        submitted_by := "d", created_at := 0 } (by decide) rfl
  have h1 : t.guilty = 2 := by rw [hg]; decide
  have h2 : t.not_guilty = 1 := by rw [hng]; decide
  have h3 : t.total_votes = 3 := by rw [ht, h1, h2]
  rw [heq]
  cases t
  simp_all

/-- The status `UPDATE` never changes a row's id. -/
theorem setStatusRow_id (s : VerdictStatus) (cid : Nat) (d : Case) :
    (setStatusRow s cid d).id = d.id := by
  unfold setStatusRow
  split <;> rfl

/-- Applying the same status `UPDATE` twice equals applying it once. -/
theorem setStatusRow_idem (s : VerdictStatus) (cid : Nat) :
    (setStatusRow s cid) ∘ (setStatusRow s cid) = setStatusRow s cid := by
  funext d
  by_cases hd : (d.id == cid) = true
  · simp [setStatusRow, hd]
  · simp [setStatusRow, hd]

/-- Searching for an id after a status `UPDATE` finds the updated row. -/
theorem find?_map_setStatusRow (l : List Case) (s : VerdictStatus) (cid : Nat) :
    (l.map (setStatusRow s cid)).find? (fun c => c.id == cid) =
      (l.find? (fun c => c.id == cid)).map (setStatusRow s cid) := by
  rw [List.find?_map]
  have hp : ((fun c : Case => c.id == cid) ∘ setStatusRow s cid) =
      (fun c : Case => c.id == cid) := by
    funext d
    show ((setStatusRow s cid d).id == cid) = (d.id == cid)
    rw [setStatusRow_id]
  rw [hp]

/-- C4: for a judge, approve on an absent case id fails with NotFound;
on an existing case it sets status approved regardless of the prior
status and returns the row, and a second approve succeeds with the same
returned row and the same state; `reject` behaves symmetrically. -/
theorem approve_reject_unconditional (st : DB) (u : String) (cid : Nat) (usr : User)
    (hfind : st.users.find? (fun x => x.username == u) = some usr)
    (hrole : usr.role = UserRole.judge) :
    (findCase st cid = none →
      approve_case st u cid = (Except.error Err.notFound, st) ∧
      reject_case st u cid = (Except.error Err.notFound, st)) ∧
    (∀ c, findCase st cid = some c →
      ∃ st1, approve_case st u cid =
          (Except.ok { c with status := VerdictStatus.approved }, st1) ∧
        approve_case st1 u cid =
          (Except.ok { c with status := VerdictStatus.approved }, st1) ∧
        (∀ d ∈ st1.cases, d.id = cid → d.status = VerdictStatus.approved)) ∧
    (∀ c, findCase st cid = some c →
      ∃ st1, reject_case st u cid =
          (Except.ok { c with status := VerdictStatus.rejected }, st1) ∧
        reject_case st1 u cid =
          (Except.ok { c with status := VerdictStatus.rejected }, st1) ∧
        (∀ d ∈ st1.cases, d.id = cid → d.status = VerdictStatus.rejected)) := by
  have hl := lookupRole_eq st u usr hfind
  refine ⟨fun hnone => ⟨by simp [approve_case, hl, hrole, hnone],
    by simp [reject_case, hl, hrole, hnone]⟩, ?_, ?_⟩
  · intro c hfc
    have hfc' : st.cases.find? (fun d => d.id == cid) = some c := hfc
    have hcid : (c.id == cid) = true := by
      have h := List.find?_some hfc'
      simpa using h
    refine ⟨{ st with cases := st.cases.map (setStatusRow VerdictStatus.approved cid) },
      by simp [approve_case, hl, hrole, hfc], ?_, ?_⟩
    · have hl1 : lookupRole
          { st with cases := st.cases.map (setStatusRow VerdictStatus.approved cid) } u =
          some usr.role := hl
      have hfc1 : findCase
          { st with cases := st.cases.map (setStatusRow VerdictStatus.approved cid) } cid =
          some { c with status := VerdictStatus.approved } := by
        unfold findCase at hfc ⊢
        show (st.cases.map (setStatusRow VerdictStatus.approved cid)).find?
          (fun c => c.id == cid) = _
        rw [find?_map_setStatusRow, hfc]
        simp [setStatusRow, hcid]
      simp [approve_case, hl1, hrole, hfc1, List.map_map, setStatusRow_idem]
    · intro d hd hdid
      simp only [List.mem_map] at hd
      obtain ⟨d0, _, rfl⟩ := hd
      have : (d0.id == cid) = true := by
        rw [setStatusRow_id] at hdid
        simpa using hdid
      simp [setStatusRow, this]
  · intro c hfc
    have hfc' : st.cases.find? (fun d => d.id == cid) = some c := hfc
    have hcid : (c.id == cid) = true := by
      have h := List.find?_some hfc'
      simpa using h
    refine ⟨{ st with cases := st.cases.map (setStatusRow VerdictStatus.rejected cid) },
      by simp [reject_case, hl, hrole, hfc], ?_, ?_⟩
    · have hl1 : lookupRole
          { st with cases := st.cases.map (setStatusRow VerdictStatus.rejected cid) } u =
          some usr.role := hl
      have hfc1 : findCase
          { st with cases := st.cases.map (setStatusRow VerdictStatus.rejected cid) } cid =
          some { c with status := VerdictStatus.rejected } := by
        unfold findCase at hfc ⊢
        show (st.cases.map (setStatusRow VerdictStatus.rejected cid)).find?
          (fun c => c.id == cid) = _
        rw [find?_map_setStatusRow, hfc]
        simp [setStatusRow, hcid]
      simp [reject_case, hl1, hrole, hfc1, List.map_map, setStatusRow_idem]
    · intro d hd hdid
      simp only [List.mem_map] at hd
      obtain ⟨d0, _, rfl⟩ := hd
      have : (d0.id == cid) = true := by
        rw [setStatusRow_id] at hdid
        simpa using hdid
      simp [setStatusRow, this]

/-- State for the C4 witness: a judge and one case that is already
rejected (so approving it also exercises "regardless of prior status"). -/
def stC4 : DB :=
  { users := [{ username := "j", password := "pw", role := UserRole.judge }]
    cases := [{ id := 1, defendant_name := "A", plaintiff_name := "B",
                argument := "arg", evidence := "ev", status := VerdictStatus.rejected,
                submitted_by := "d", created_at := 0 }]
    votes := [], nextCaseId := 2, nextVoteId := 1 }

/-- Witness for C4: approve of missing case 9 is NotFound; approving the
already-rejected case 1 succeeds, and approving it twice succeeds with
the same result and state both times. -/
theorem approve_reject_unconditional_witness :
    approve_case stC4 "j" 9 = (Except.error Err.notFound, stC4) ∧
    (∃ st1, approve_case stC4 "j" 1 =
        (Except.ok { id := 1, defendant_name := "A", plaintiff_name := "B",
                     argument := "arg", evidence := "ev", status := VerdictStatus.approved,
                     submitted_by := "d", created_at := 0 }, st1) ∧
      approve_case st1 "j" 1 =
        (Except.ok { id := 1, defendant_name := "A", plaintiff_name := "B",
                     argument := "arg", evidence := "ev", status := VerdictStatus.approved,
                     submitted_by := "d", created_at := 0 }, st1)) := by
  have husr : stC4.users.find? (fun x => x.username == "j") =
      some { username := "j", password := "pw", role := UserRole.judge } := rfl
  obtain ⟨hnf, hok, _⟩ := approve_reject_unconditional stC4 "j" 9
    { username := "j", password := "pw", role := UserRole.judge } husr rfl
  obtain ⟨_, hok1, _⟩ := approve_reject_unconditional stC4 "j" 1
    { username := "j", password := "pw", role := UserRole.judge } husr rfl
  obtain ⟨st1, h1, h2, _⟩ := hok1
    { id := 1, defendant_name := "A", plaintiff_name := "B",
      argument := "arg", evidence := "ev", status := VerdictStatus.rejected,
      submitted_by := "d", created_at := 0 } rfl
  exact ⟨(hnf rfl).1, ⟨st1, h1, h2⟩⟩

/-- In a table with pairwise-distinct ids, two member rows with the same
id are the same row. -/
theorem mem_uniq_id (l : List Case) (huniq : l.Pairwise (fun a b => a.id ≠ b.id))
    (c c' : Case) (hc : c ∈ l) (hc' : c' ∈ l) (hid : c'.id = c.id) : c' = c := by
  induction l with
  | nil => cases hc
  | cons a t ih =>
    rw [List.pairwise_cons] at huniq
    rcases List.mem_cons.mp hc with rfl | hct <;> rcases List.mem_cons.mp hc' with rfl | hct'
    · rfl
    · exact absurd hid.symm (huniq.1 c' hct')
    · exact absurd hid (huniq.1 c hct)
    · exact ih huniq.2 hct hct'

/-- The edit `UPDATE`s never change a row's status. -/
theorem applyUpdate_status (update : CaseUpdate) (c : Case) :
    (applyUpdate update c).status = c.status := by
  cases h1 : update.argument <;> cases h2 : update.evidence <;>
    simp [applyUpdate, h1, h2] <;> split_ifs <;> rfl

/-- The edit `UPDATE`s never change a row's id. -/
theorem applyUpdate_id (update : CaseUpdate) (c : Case) :
    (applyUpdate update c).id = c.id := by
  cases h1 : update.argument <;> cases h2 : update.evidence <;>
    simp [applyUpdate, h1, h2] <;> split_ifs <;> rfl

/-- The per-row effect of edit preserves the status of every row. -/
theorem updateRow_status (update : CaseUpdate) (cid : Nat) (d : Case) :
    (updateRow update cid d).status = d.status := by
  unfold updateRow
  split
  · exact applyUpdate_status update d
  · rfl

/-- The per-row effect of edit preserves the id of every row. -/
theorem updateRow_id (update : CaseUpdate) (cid : Nat) (d : Case) :
    (updateRow update cid d).id = d.id := by
  unfold updateRow
  split
  · exact applyUpdate_id update d
  · rfl

/-- C2 (amended): under unique case ids and a fresh id counter, whenever
any operation changes the status of an existing case row, the new status
is approved or rejected — in particular no operation ever sets a status
back to pending.  (The original claim's stronger "no transition out of
approved/rejected" is refuted by `status_transitions_counterexample`:
approve and reject overwrite the status unconditionally.) -/
theorem status_transitions (st : DB) (op : Op)
    (huniq : st.cases.Pairwise (fun a b => a.id ≠ b.id))
    (hfresh : ∀ d ∈ st.cases, d.id < st.nextCaseId)
    (c c' : Case) (hc : c ∈ st.cases) (hc' : c' ∈ (step st op).cases)
    (hid : c'.id = c.id) (hne : c'.status ≠ c.status) :
    c'.status = VerdictStatus.approved ∨ c'.status = VerdictStatus.rejected := by
  have habs : c' ∈ st.cases → False := fun hmem =>
    hne (congrArg Case.status (mem_uniq_id st.cases huniq c c' hc hmem hid))
  cases op with
  | opSignup u p r =>
    simp only [step, signup] at hc'
    split at hc' <;> exact absurd hc' habs
  | opLogin u p =>
    simp only [step, login] at hc'
    split at hc'
    · exact absurd hc' habs
    · split at hc' <;> exact absurd hc' habs
  | opSubmit u case now =>
    simp only [step, submit_case] at hc'
    split at hc'
    · exact absurd hc' habs
    · split at hc'
      · exact absurd hc' habs
      · simp only [List.mem_append, List.mem_singleton] at hc'
        rcases hc' with hmem | rfl
        · exact absurd hmem habs
        · have := hfresh c hc
          simp only at hid
          omega
  | opGetAll u =>
    simp only [step, get_all_cases] at hc'
    exact absurd hc' habs
  | opSearch u n =>
    simp only [step, filter_by_name] at hc'
    split at hc'
    · exact absurd hc' habs
    · split at hc' <;> exact absurd hc' habs
  | opEdit u cid upd =>
    simp only [step, edit_case] at hc'
    split at hc'
    · exact absurd hc' habs
    · split at hc'
      · exact absurd hc' habs
      · split at hc'
        · exact absurd hc' habs
        · simp only [List.mem_map] at hc'
          obtain ⟨d0, hd0, rfl⟩ := hc'
          have hs := updateRow_status upd cid d0
          have hi := updateRow_id upd cid d0
          have : d0 = c := mem_uniq_id st.cases huniq c d0 hc hd0 (hi ▸ hid)
          exact absurd (hs.trans (congrArg Case.status this)) hne
  | opDelete u cid =>
    simp only [step, delete_case] at hc'
    split at hc'
    · exact absurd hc' habs
    · split at hc'
      · exact absurd hc' habs
      · split at hc'
        · exact absurd hc' habs
        · exact absurd (List.mem_of_mem_filter hc') habs
  | opApprove u cid =>
    simp only [step, approve_case] at hc'
    split at hc'
    · exact absurd hc' habs
    · split at hc'
      · exact absurd hc' habs
      · split at hc'
        · exact absurd hc' habs
        · simp only [List.mem_map] at hc'
          obtain ⟨d0, hd0, rfl⟩ := hc'
          by_cases hd : (d0.id == cid) = true
          · left
            simp [setStatusRow, hd]
          · have : setStatusRow VerdictStatus.approved cid d0 = d0 := by
              simp [setStatusRow, hd]
            rw [this] at hid hne ⊢
            exact absurd hd0 (fun hmem =>
              hne (congrArg Case.status (mem_uniq_id st.cases huniq c d0 hc hmem hid)))
  | opReject u cid =>
    simp only [step, reject_case] at hc'
    split at hc'
    · exact absurd hc' habs
    · split at hc'
      · exact absurd hc' habs
      · split at hc'
        · exact absurd hc' habs
        · simp only [List.mem_map] at hc'
          obtain ⟨d0, hd0, rfl⟩ := hc'
          by_cases hd : (d0.id == cid) = true
          · right
            simp [setStatusRow, hd]
          · have : setStatusRow VerdictStatus.rejected cid d0 = d0 := by
              simp [setStatusRow, hd]
            rw [this] at hid hne ⊢
            exact absurd hd0 (fun hmem =>
              hne (congrArg Case.status (mem_uniq_id st.cases huniq c d0 hc hmem hid)))
  | opVote u cid v =>
    simp only [step, vote] at hc'
    split at hc'
    · exact absurd hc' habs
    · split at hc'
      · exact absurd hc' habs
      · split at hc'
        · exact absurd hc' habs
        · split at hc' <;> exact absurd hc' habs
  | opResults u cid =>
    simp only [step, get_results] at hc'
    split at hc' <;> exact absurd hc' habs

/-- State refuting the original C2: a judge and an approved case. -/
def stC2 : DB :=
  { users := [{ username := "j", password := "pw", role := UserRole.judge }]
    cases := [{ id := 1, defendant_name := "A", plaintiff_name := "B",
                argument := "arg", evidence := "ev", status := VerdictStatus.approved,
                submitted_by := "d", created_at := 0 }]
    votes := [], nextCaseId := 2, nextVoteId := 1 }

/-- Counterexample to C2 as stated: case 1 has status approved, yet a
judge's reject changes its status to rejected — a transition out of
approved, which the claim says never happens. -/
theorem status_transitions_counterexample :
    stC2.cases.map Case.status = [VerdictStatus.approved] ∧
    (step stC2 (Op.opReject "j" 1)).cases.map Case.status = [VerdictStatus.rejected] :=
  ⟨rfl, rfl⟩

/-- Witness for the amended C2 at a concrete input: the changed status
after the reject is among {approved, rejected}. -/
theorem status_transitions_witness :
    ({ id := 1, defendant_name := "A", plaintiff_name := "B",
       argument := "arg", evidence := "ev", status := VerdictStatus.approved,
       submitted_by := "d", created_at := 0 } : Case) ∈ stC2.cases ∧
    ({ id := 1, defendant_name := "A", plaintiff_name := "B",
       argument := "arg", evidence := "ev", status := VerdictStatus.rejected,
       submitted_by := "d", created_at := 0 } : Case) ∈ (step stC2 (Op.opReject "j" 1)).cases ∧
    (VerdictStatus.rejected = VerdictStatus.approved ∨
      VerdictStatus.rejected = VerdictStatus.rejected) := by
  refine ⟨by decide, by decide, ?_⟩
  exact status_transitions stC2 (Op.opReject "j" 1) (by decide) (by decide)
    { id := 1, defendant_name := "A", plaintiff_name := "B",
      argument := "arg", evidence := "ev", status := VerdictStatus.approved,
      submitted_by := "d", created_at := 0 }
    { id := 1, defendant_name := "A", plaintiff_name := "B",
      argument := "arg", evidence := "ev", status := VerdictStatus.rejected,
      submitted_by := "d", created_at := 0 }
    (by decide) (by decide) rfl (by decide)

/-- The edit `UPDATE`s change the argument field only when the request
provides a non-empty argument (Python truthiness in `if update.argument:`). -/
theorem applyUpdate_argument (update : CaseUpdate) (c : Case) :
    (applyUpdate update c).argument =
      (match update.argument with
       | some a => if a = "" then c.argument else a
       | none => c.argument) := by
  cases h1 : update.argument <;> cases h2 : update.evidence <;>
    simp [applyUpdate, h1, h2] <;> split_ifs <;> rfl

/-- The edit `UPDATE`s change the evidence field only when the request
provides a non-empty evidence (Python truthiness in `if update.evidence:`). -/
theorem applyUpdate_evidence (update : CaseUpdate) (c : Case) :
    (applyUpdate update c).evidence =
      (match update.evidence with
       | some e => if e = "" then c.evidence else e
       | none => c.evidence) := by
  cases h1 : update.argument <;> cases h2 : update.evidence <;>
    simp [applyUpdate, h1, h2] <;> split_ifs <;> rfl

/-- The edit `UPDATE`s leave every field other than argument and
evidence untouched. -/
theorem applyUpdate_frame (update : CaseUpdate) (c : Case) :
    (applyUpdate update c).id = c.id ∧
    (applyUpdate update c).defendant_name = c.defendant_name ∧
    (applyUpdate update c).plaintiff_name = c.plaintiff_name ∧
    (applyUpdate update c).status = c.status ∧
    (applyUpdate update c).submitted_by = c.submitted_by ∧
    (applyUpdate update c).created_at = c.created_at := by
  cases h1 : update.argument <;> cases h2 : update.evidence <;>
    simp [applyUpdate, h1, h2] <;> split_ifs <;> simp

/-- C6 (amended): for a judge and an existing case, edit overwrites each
provided non-empty field with the given value, but a provided empty
string is treated like an omitted field and leaves the stored value
unchanged (Python truthiness); omitted fields and all other case fields
are untouched, the updated case is returned, non-judges get Forbidden
and an absent case id gets NotFound.  (The original claim's "overwrites
including when the given value is the empty string" is refuted by
`edit_fields_counterexample`.) -/
theorem edit_fields (st : DB) (u : String) (cid : Nat) (update : CaseUpdate) :
    (∀ usr, st.users.find? (fun x => x.username == u) = some usr →
      usr.role ≠ UserRole.judge →
      edit_case st u cid update = (Except.error Err.forbidden, st)) ∧
    (∀ usr, st.users.find? (fun x => x.username == u) = some usr →
      usr.role = UserRole.judge → findCase st cid = none →
      edit_case st u cid update = (Except.error Err.notFound, st)) ∧
    (∀ usr c, st.users.find? (fun x => x.username == u) = some usr →
      usr.role = UserRole.judge → findCase st cid = some c →
      ∃ c' st', edit_case st u cid update = (Except.ok c', st') ∧
        (∀ a, update.argument = some a → a ≠ "" → c'.argument = a) ∧
        (update.argument = none ∨ update.argument = some "" →
          c'.argument = c.argument) ∧
        (∀ e, update.evidence = some e → e ≠ "" → c'.evidence = e) ∧
        (update.evidence = none ∨ update.evidence = some "" →
          c'.evidence = c.evidence) ∧
        c'.id = c.id ∧ c'.defendant_name = c.defendant_name ∧
        c'.plaintiff_name = c.plaintiff_name ∧ c'.status = c.status ∧
        c'.submitted_by = c.submitted_by ∧ c'.created_at = c.created_at ∧
        st'.users = st.users ∧ st'.votes = st.votes ∧
        (∀ d ∈ st.cases, d.id ≠ cid → d ∈ st'.cases)) := by
  refine ⟨?_, ?_, ?_⟩
  · intro usr hf hr
    have hl := lookupRole_eq st u usr hf
    simp [edit_case, hl, hr]
  · intro usr hf hr hn
    have hl := lookupRole_eq st u usr hf
    simp [edit_case, hl, hr, hn]
  · intro usr c hf hr hfc
    have hl := lookupRole_eq st u usr hf
    obtain ⟨hfr1, hfr2, hfr3, hfr4, hfr5, hfr6⟩ := applyUpdate_frame update c
    refine ⟨applyUpdate update c,
      { st with cases := st.cases.map (updateRow update cid) },
      by simp [edit_case, hl, hr, hfc], ?_, ?_, ?_, ?_,
      hfr1, hfr2, hfr3, hfr4, hfr5, hfr6, rfl, rfl, ?_⟩
    · intro a ha hne
      rw [applyUpdate_argument, ha]
      simp [hne]
    · rintro (ha | ha) <;> (rw [applyUpdate_argument, ha]; try simp)
    · intro e he hne
      rw [applyUpdate_evidence, he]
      simp [hne]
    · rintro (he | he) <;> (rw [applyUpdate_evidence, he]; try simp)
    · intro d hd hne
      show d ∈ st.cases.map (updateRow update cid)
      refine List.mem_map.mpr ⟨d, hd, ?_⟩
      simp [updateRow, hne]

/-- State refuting the original C6: a judge and a case whose argument is
the non-empty string "old". -/
def stC6 : DB :=
  { users := [{ username := "j", password := "pw", role := UserRole.judge }]
    cases := [{ id := 1, defendant_name := "A", plaintiff_name := "B",
                argument := "old", evidence := "ev", status := VerdictStatus.pending,
                submitted_by := "d", created_at := 0 }]
    votes := [], nextCaseId := 2, nextVoteId := 1 }

/-- Counterexample to C6 as stated: a judge edits case 1 providing
argument = "" (the empty string).  The claim says the provided value
overwrites, so the returned case would have argument ""; the code's
`if update.argument:` is false for "" and the argument stays "old". -/
theorem edit_fields_counterexample :
    (edit_case stC6 "j" 1 { argument := some "", evidence := none }).1 =
      Except.ok { id := 1, defendant_name := "A", plaintiff_name := "B",
                  argument := "old", evidence := "ev", status := VerdictStatus.pending,
                  submitted_by := "d", created_at := 0 } ∧
    "old" ≠ "" := ⟨rfl, by decide⟩

/-- Witness for the amended C6: providing argument "NEW" and evidence ""
overwrites the argument and keeps the stored evidence. -/
theorem edit_fields_witness :
    ∃ c' st', edit_case stC6 "j" 1 { argument := some "NEW", evidence := some "" } =
        (Except.ok c', st') ∧
      c'.argument = "NEW" ∧ c'.evidence = "ev" ∧ st'.votes = stC6.votes := by
  obtain ⟨_, _, h3⟩ := edit_fields stC6 "j" 1 { argument := some "NEW", evidence := some "" }
  obtain ⟨c', st', heq, ha, _, _, hekeep, _, _, _, _, _, _, _, hv, _⟩ := h3
    { username := "j", password := "pw", role := UserRole.judge }
    { id := 1, defendant_name := "A", plaintiff_name := "B",
      argument := "old", evidence := "ev", status := VerdictStatus.pending,
      submitted_by := "d", created_at := 0 } rfl rfl rfl
  exact ⟨c', st', heq, ha "NEW" rfl (by decide), (hekeep (Or.inr rfl)).trans rfl, hv.trans rfl⟩

/-- A character that is not a `LIKE` metacharacter lexes to a literal. -/
theorem lexPat_lit (a : Char) (ps : List Char)
    (h1 : a ≠ '%') (h2 : a ≠ '_') (h3 : a ≠ '\\') :
    lexPat (a :: ps) = (lexPat ps).map (LTok.lit a :: ·) := by
  rw [lexPat.eq_def]
  simp [h1, h2, h3]

/-- A leading `%` wildcard lexes to the `%` token. -/
theorem lexPat_pct (ps : List Char) :
    lexPat ('%' :: ps) = (lexPat ps).map (LTok.pct :: ·) := by
  rw [lexPat.eq_def]
  simp

/-- A wildcard-free pattern segment lexes to its literal tokens. -/
theorem lexPat_append_noWild (s r : List Char) (hs : noWild s) :
    lexPat (s ++ r) = (lexPat r).map (fun ks => s.map LTok.lit ++ ks) := by
  induction s with
  | nil =>
    show lexPat r = (lexPat r).map (fun ks => [] ++ ks)
    cases lexPat r <;> simp
  | cons a s ih =>
    have ha := hs a (List.mem_cons_self a s)
    have hs' : noWild s := fun x hx => hs x (List.mem_cons_of_mem a hx)
    rw [List.cons_append, lexPat_lit a (s ++ r) ha.1 ha.2.1 ha.2.2, ih hs']
    cases lexPat r <;> simp

/-- A leading `%` token matches exactly when the rest of the pattern
matches some suffix of the text. -/
theorem tokMatch_pct (ks : List LTok) (t : List Char) :
    tokMatch (LTok.pct :: ks) t = true ↔
      ∃ l r, t = l ++ r ∧ tokMatch ks r = true := by
  rw [show tokMatch (LTok.pct :: ks) t = t.tails.any (fun u => tokMatch ks u) from rfl]
  rw [List.any_eq_true]
  constructor
  · rintro ⟨u, hu, hm⟩
    obtain ⟨l, hl⟩ := (List.mem_tails u t).mp hu
    exact ⟨l, u, hl.symm, hm⟩
  · rintro ⟨l, r, rfl, hm⟩
    exact ⟨r, (List.mem_tails r (l ++ r)).mpr ⟨l, rfl⟩, hm⟩

/-- A literal token sequence matches exactly when it is consumed
verbatim from the front of the text. -/
theorem tokMatch_lits (s : List Char) (ks : List LTok) (t : List Char) :
    tokMatch (s.map LTok.lit ++ ks) t = true ↔
      ∃ r, t = s ++ r ∧ tokMatch ks r = true := by
  induction s generalizing t with
  | nil => simp
  | cons a s ih =>
    rw [List.map_cons, List.cons_append]
    cases t with
    | nil =>
      rw [show tokMatch (LTok.lit a :: (s.map LTok.lit ++ ks)) [] = false from rfl]
      simp
    | cons c ts =>
      rw [show tokMatch (LTok.lit a :: (s.map LTok.lit ++ ks)) (c :: ts) =
        ((c = a) && tokMatch (s.map LTok.lit ++ ks) ts) from rfl]
      rw [Bool.and_eq_true, decide_eq_true_eq, ih]
      constructor
      · rintro ⟨rfl, r, rfl, hm⟩
        exact ⟨r, rfl, hm⟩
      · rintro ⟨r, heq, hm⟩
        injection heq with h1 h2
        exact ⟨h1, r, h2, hm⟩

/-- A trailing lone `%` token matches every text. -/
theorem tokMatch_pct_end (r : List Char) : tokMatch [LTok.pct] r = true := by
  rw [show tokMatch [LTok.pct] r = r.tails.any (fun u => tokMatch [] u) from rfl]
  rw [List.any_eq_true]
  exact ⟨[], (List.mem_tails [] r).mpr ⟨r, by simp⟩, rfl⟩

/-- The pattern the source builds, `%s%` with `s` wildcard-free, matches
a text exactly when `s` occurs contiguously somewhere in the text. -/
theorem likeMatch_sandwich (s t : List Char) (hs : noWild s) :
    likeMatch ('%' :: (s ++ ['%'])) t = true ↔ ∃ l r, t = l ++ s ++ r := by
  unfold likeMatch
  rw [lexPat_pct]
  rw [lexPat_append_noWild s ['%'] hs]
  rw [show lexPat ['%'] = some [LTok.pct] from rfl]
  show tokMatch (LTok.pct :: (s.map LTok.lit ++ [LTok.pct])) t = true ↔ _
  rw [tokMatch_pct]
  constructor
  · rintro ⟨l, r, rfl, hm⟩
    obtain ⟨r2, rfl, _⟩ := (tokMatch_lits s [LTok.pct] r).mp hm
    exact ⟨l, r2, by rw [List.append_assoc]⟩
  · rintro ⟨l, r, rfl⟩
    refine ⟨l, s ++ r, by rw [List.append_assoc], ?_⟩
    exact (tokMatch_lits s [LTok.pct] (s ++ r)).mpr ⟨r, rfl, tokMatch_pct_end r⟩

/-- `noWild` is checkable (it is a bounded forall over the list). -/
instance noWildDec (s : List Char) : Decidable (noWild s) :=
  inferInstanceAs (Decidable (∀ c ∈ s, c ≠ '%' ∧ c ≠ '_' ∧ c ≠ '\\'))

/-- C7 (amended): search requires the juror role (others get Forbidden),
and for a search string whose lower-casing contains no `LIKE`
metacharacter (`%`, `_`, backslash) it returns exactly the cases whose
defendant or plaintiff name contains the string as a case-insensitive
substring.  (For search strings containing `LIKE` metacharacters the
substring reading is refuted by `search_by_name_counterexample`.) -/
theorem search_by_name_spec (st : DB) (u name : String) (usr : User)
    (hfind : st.users.find? (fun x => x.username == u) = some usr) :
    (usr.role ≠ UserRole.juror →
      filter_by_name st u name = (Except.error Err.forbidden, st)) ∧
    (usr.role = UserRole.juror → noWild (lowerL name.toList) →
      ∃ res, filter_by_name st u name = (Except.ok res, st) ∧
        ∀ c, c ∈ res ↔ c ∈ st.cases ∧
          (containsCI name c.defendant_name ∨ containsCI name c.plaintiff_name)) := by
  have hl := lookupRole_eq st u usr hfind
  refine ⟨fun hr => by simp [filter_by_name, hl, hr], fun hr hw => ?_⟩
  refine ⟨st.cases.filter (searchMatches name),
    by simp [filter_by_name, hl, hr], ?_⟩
  intro c
  rw [List.mem_filter]
  have hiff : searchMatches name c = true ↔
      (containsCI name c.defendant_name ∨ containsCI name c.plaintiff_name) := by
    unfold searchMatches containsCI
    rw [Bool.or_eq_true, likeMatch_sandwich _ _ hw, likeMatch_sandwich _ _ hw]
  rw [hiff]

/-- State for C7: a juror and one case with names "x" and "y". -/
def stC7 : DB :=
  { users := [{ username := "u", password := "pw", role := UserRole.juror }]
    cases := [{ id := 1, defendant_name := "x", plaintiff_name := "y",
                argument := "arg", evidence := "ev", status := VerdictStatus.pending,
                submitted_by := "d", created_at := 0 }]
    votes := [], nextCaseId := 2, nextVoteId := 1 }

/-- Counterexample to C7 as stated: searching for the string "%" returns
the case with names "x"/"y", although "%" is not a (case-insensitive)
substring of either name — the handler hands the string to SQL `LIKE`,
where `%` is a wildcard. -/
theorem search_by_name_counterexample :
    (filter_by_name stC7 "u" "%").1 =
      Except.ok [{ id := 1, defendant_name := "x", plaintiff_name := "y",
                   argument := "arg", evidence := "ev", status := VerdictStatus.pending,
                   submitted_by := "d", created_at := 0 }] ∧
    ¬ containsCI "%" "x" ∧ ¬ containsCI "%" "y" := by
  refine ⟨rfl, ?_, ?_⟩
  · rintro ⟨l, r, h⟩
    have hm : ('%' : Char) ∈ l ++ lowerL "%".toList ++ r := by simp [lowerL]
    rw [← h] at hm
    exact absurd hm (by decide)
  · rintro ⟨l, r, h⟩
    have hm : ('%' : Char) ∈ l ++ lowerL "%".toList ++ r := by simp [lowerL]
    rw [← h] at hm
    exact absurd hm (by decide)

/-- Witness for the amended C7: the wildcard-free search "X" finds the
case whose defendant name is "x" (case-insensitively). -/
theorem search_by_name_witness :
    ∃ res, filter_by_name stC7 "u" "X" = (Except.ok res, stC7) ∧
      { id := 1, defendant_name := "x", plaintiff_name := "y",
        argument := "arg", evidence := "ev", status := VerdictStatus.pending,
        submitted_by := "d", created_at := 0 } ∈ res := by
  obtain ⟨_, hok⟩ := search_by_name_spec stC7 "u" "X"
    { username := "u", password := "pw", role := UserRole.juror } rfl
  obtain ⟨res, heq, hmem⟩ := hok rfl (by decide)
  refine ⟨res, heq, ?_⟩
  exact (hmem _).mpr ⟨by decide, Or.inl ⟨[], [], rfl⟩⟩

end CourtSystem
